import Mathlib

/-!
Verification of the Cloudreve filesystem hook pipeline (pkg/filesystem/hooks.go)
and the authentication middleware (middleware file: SignRequired, WebDAVAuth,
uploadCallbackCheck), as a shallow embedding in Lean 4.

Go error values are modelled by the inductive type FSError; a nil Go error is
Option.none. Stateful hooks are modelled as explicit state transformers on a
World record that holds the persisted file record and physical-store state.
A Go panic caused by an unchecked type assertion is modelled by the
HookOutcome.panicked constructor.
-/

/-- Errors of the filesystem package (ErrFileSizeTooBig, ErrIllegalObjectName,
ErrFileExtensionNotAllowed, ErrObjectNotExist, ErrInsufficientCapacity,
ErrFileUploadSessionExisted, ErrFileExisted, ErrInsertFileRecord), plus a
constructor for arbitrary underlying storage-layer errors. -/
inductive FSError where
  | fileSizeTooBig
  | illegalObjectName
  | fileExtensionNotAllowed
  | objectNotExist
  | insufficientCapacity
  | fileUploadSessionExisted
  | fileExisted
  | insertFileRecord
  | underlying (code : Nat)
deriving DecidableEq, Repr

/-- Outcome of a Go function call that may panic on an unchecked type
assertion: either it panics, or it returns an error value (none = nil). -/
inductive HookOutcome where
  | panicked
  | returned (err : Option FSError)
deriving DecidableEq, Repr

/-! ## Hook pipeline (Use / Trigger), hooks.go lines 21-57 -/

/-- A hook: consumes the ambient state, produces the new state and an error
(none = nil). The Go signature is func(ctx, fs, file) error; the context,
filesystem and file header it may read or mutate are folded into the state
parameter. -/
def Hook (σ : Type) := σ → σ × Option FSError

/-- The FileSystem aggregate, restricted to its Hooks field: a map from
hook-point name to the ordered list of registered hooks. A name that was
never registered maps to none (the Go map lookup with ok = false). -/
structure HookRegistry (σ : Type) where
  hooks : String → Option (List (Hook σ))

/-- Use (hooks.go lines 24-33): appends the hook to the list for the name,
creating a singleton list when the name has no entry yet. -/
def Use {σ : Type} (fs : HookRegistry σ) (name : String) (hook : Hook σ) :
    HookRegistry σ :=
  ⟨fun n => if n = name then some ((fs.hooks name).getD [] ++ [hook])
            else fs.hooks n⟩

/-- The sequential loop body of Trigger: runs each hook in list order,
threading the state; stops at the first hook returning a non-nil error and
returns that error. -/
def runHooks {σ : Type} : List (Hook σ) → σ → σ × Option FSError
  | [], s => (s, none)
  | h :: rest, s =>
    match h s with
    | (s', none) => runHooks rest s'
    | (s', some e) => (s', some e)

/-- Trigger (hooks.go lines 46-57): looks the name up in the Hooks map; when
present runs the hooks via runHooks, otherwise returns nil without touching
the state. The Go version also logs a warning on error, which has no
observable effect on the returned value or state. -/
def Trigger {σ : Type} (fs : HookRegistry σ) (name : String) (s : σ) :
    σ × Option FSError :=
  match fs.hooks name with
  | some hs => runHooks hs s
  | none => (s, none)

lemma runHooks_front_clean {σ : Type} (pre : List (Hook σ)) :
    ∀ (rest : List (Hook σ)) (s s1 : σ), runHooks pre s = (s1, none) →
      runHooks (pre ++ rest) s = runHooks rest s1 := by
  induction pre with
  | nil =>
    intro rest s s1 h
    simp [runHooks] at h
    simp [h]
  | cons hd tl ih =>
    intro rest s s1 h
    simp only [runHooks, List.cons_append] at h ⊢
    rcases hhd : hd s with ⟨s', e⟩
    rw [hhd] at h
    cases e with
    | none => exact ih rest s' s1 h
    | some e0 => simp at h

lemma runHooks_all_nil {σ : Type} (hs : List (Hook σ)) :
    ∀ s : σ, (∀ h ∈ hs, ∀ t, (h t).2 = none) →
      runHooks hs s = (hs.foldl (fun t h => (h t).1) s, none) := by
  induction hs with
  | nil => intro s _; simp [runHooks]
  | cons hd tl ih =>
    intro s hall
    have hhd := hall hd (by simp) s
    simp only [runHooks]
    rcases hval : hd s with ⟨s', e⟩
    rw [hval] at hhd
    simp at hhd
    subst hhd
    have := ih s' (fun h hm t => hall h (by simp [hm]) t)
    simp only [List.foldl_cons, hval]
    exact this

/-- Claim C2: Trigger executes the registered hooks in registration order;
if the k-th hook returns a non-nil error, that error is returned at once and
hooks k+1..n are never invoked (the final state is exactly the state after
the failing hook, whatever the remaining hooks are); Trigger returns nil
when the name has no registered hooks (the state is untouched) or when every
hook returns nil (the state is the left fold of the hooks in list order). -/
theorem trigger_spec {σ : Type} (fs : HookRegistry σ) (name : String) (s : σ) :
    (fs.hooks name = none → Trigger fs name s = (s, none)) ∧
    (∀ (pre : List (Hook σ)) (bad : Hook σ) (post : List (Hook σ))
       (s1 s2 : σ) (e : FSError),
       fs.hooks name = some (pre ++ bad :: post) →
       runHooks pre s = (s1, none) → bad s1 = (s2, some e) →
       Trigger fs name s = (s2, some e)) ∧
    (∀ hs : List (Hook σ), fs.hooks name = some hs →
       (∀ h ∈ hs, ∀ t, (h t).2 = none) →
       Trigger fs name s = (hs.foldl (fun t h => (h t).1) s, none)) := by
  refine ⟨?_, ?_, ?_⟩
  · intro h; simp [Trigger, h]
  · intro pre bad post s1 s2 e hmap hpre hbad
    simp only [Trigger, hmap]
    rw [runHooks_front_clean pre (bad :: post) s s1 hpre]
    simp [runHooks, hbad]
  · intro hs hmap hall
    simp only [Trigger, hmap]
    exact runHooks_all_nil hs s hall

/-- Demo hooks over σ = Nat used to witness trigger_spec. -/
def demoH1 : Hook Nat := fun s => (s + 1, none)

def demoBad : Hook Nat := fun s => (s * 10, some FSError.fileExisted)

def demoH3 : Hook Nat := fun s => (s + 100, none)

/-- A registry with three hooks on the name upload, built via Use. -/
def demoFS : HookRegistry Nat :=
  Use (Use (Use ⟨fun _ => none⟩ "upload" demoH1) "upload" demoBad)
    "upload" demoH3

theorem trigger_spec_witness :
    Trigger demoFS "upload" 0 = (10, some FSError.fileExisted) ∧
    Trigger demoFS "other" 0 = (0, none) :=
  ⟨(trigger_spec demoFS "upload" 0).2.1 [demoH1] demoBad [demoH3] 1 10
      FSError.fileExisted rfl rfl rfl,
   (trigger_spec demoFS "other" 0).1 rfl⟩

/-! ## File model, context values and the FileSystem aggregate -/

/-- The fields of model.File used by the hooks: the recorded size, the
source name, the nullable upload session reference and the policy returned
by GetPolicy (modelled by its id). -/
structure ModelFile where
  size : Nat
  sourceName : String
  uploadSessionID : Option String
  policy : Nat
deriving DecidableEq, Repr

/-- Context values read by the hooks through ctx.Value: the original file
record under fsctx.FileModelCtx (none when absent, in which case a type
assertion with ok reports failure and one without panics) and whether a
cancellation function is attached under fsctx.CancelFuncCtx. -/
structure Ctx where
  fileModel : Option ModelFile
  cancelFunc : Bool

/-- The acting user, restricted to GetRemainingCapacity. -/
structure GoUser where
  remainingCapacity : Nat

/-- The FileSystem aggregate as the hooks see it: the acting user, the
current policy (by id), the result of DispatchHandler for a given policy
(an abstract oracle, DispatchHandler lives outside hooks.go), and the three
validators ValidateFileSize / ValidateLegalName / ValidateExtension
(abstract predicates, defined outside hooks.go, driven by the policy). -/
structure FSCore where
  user : GoUser
  policy : Nat
  dispatchResult : Nat → Option FSError
  validateFileSize : Nat → Bool
  validateLegalName : String → Bool
  validateExtension : String → Bool

/-- The FileInfo descriptor returned by fileHeader.Info(): logical name,
declared size, append offset for chunk uploads, physical save path, and the
back-reference to the persisted record (fileInfo.Model; none models a nil
interface, on which an unchecked type assertion panics). -/
structure FileInfo where
  fileName : String
  size : Nat
  appendStart : Nat
  savePath : String
  model : Option ModelFile
  virtualPath : String
deriving DecidableEq, Repr

/-! ## Validation hooks (hooks.go lines 60-112) -/

/-- HookValidateFile (hooks.go lines 60-80): size check, then filename
legality, then extension, each with its own error, returning nil when all
three pass. -/
def HookValidateFile (fs : FSCore) (info : FileInfo) : Option FSError :=
  if ¬ fs.validateFileSize info.size then some .fileSizeTooBig
  else if ¬ fs.validateLegalName info.fileName then some .illegalObjectName
  else if ¬ fs.validateExtension info.fileName then some .fileExtensionNotAllowed
  else none

/-- HookValidateCapacity (hooks.go lines 94-100): insufficient capacity when
the user's remaining capacity is strictly below the declared size. -/
def HookValidateCapacity (fs : FSCore) (info : FileInfo) : Option FSError :=
  if fs.user.remainingCapacity < info.size then some .insufficientCapacity
  else none

/-- HookValidateCapacityDiff (hooks.go lines 103-112): reads the original
file from the context with an UNCHECKED type assertion (panics when the
context value is absent), then delegates to HookValidateCapacity only when
the new size strictly exceeds the original size. -/
def HookValidateCapacityDiff (ctx : Ctx) (fs : FSCore) (newFile : FileInfo) :
    HookOutcome :=
  match ctx.fileModel with
  | none => .panicked
  | some originFile =>
    if newFile.size > originFile.size then
      .returned (HookValidateCapacity fs newFile)
    else
      .returned none

/-- HookResetPolicy (hooks.go lines 83-91): checked type assertion on the
context file record (object-not-exist error when absent), then installs the
record's policy on the FileSystem and re-dispatches the handler. -/
def HookResetPolicy (ctx : Ctx) (fs : FSCore) : FSCore × Option FSError :=
  match ctx.fileModel with
  | none => (fs, some .objectNotExist)
  | some originFile =>
    let fs' := { fs with policy := originFile.policy }
    (fs', fs'.dispatchResult originFile.policy)

/-- Claim C3: when the new size is at most the original size,
HookValidateCapacityDiff returns nil whatever the user's remaining capacity
is (including zero); when the new size strictly exceeds the original size it
returns the insufficient-capacity error exactly when the remaining capacity
is strictly below the new size, so equality of remaining capacity and new
size passes. -/
theorem hookValidateCapacityDiff_spec (ctx : Ctx) (fs : FSCore)
    (newFile : FileInfo) (originFile : ModelFile)
    (h : ctx.fileModel = some originFile) :
    (newFile.size ≤ originFile.size →
      HookValidateCapacityDiff ctx fs newFile = .returned none) ∧
    (originFile.size < newFile.size →
      ((HookValidateCapacityDiff ctx fs newFile =
          .returned (some .insufficientCapacity) ↔
        fs.user.remainingCapacity < newFile.size) ∧
       (fs.user.remainingCapacity = newFile.size →
        HookValidateCapacityDiff ctx fs newFile = .returned none))) := by
  constructor
  · intro hle
    simp [HookValidateCapacityDiff, h, Nat.not_lt.mpr hle]
  · intro hgt
    constructor
    · constructor
      · intro heq
        simp [HookValidateCapacityDiff, h, hgt, HookValidateCapacity] at heq
        by_contra hc
        simp [hc] at heq
      · intro hlt
        simp [HookValidateCapacityDiff, h, hgt, HookValidateCapacity, hlt]
    · intro heq
      simp [HookValidateCapacityDiff, h, hgt, HookValidateCapacity, heq]

/-- A concrete FSCore used by several witnesses: 100 units of remaining
capacity, all validators accepting everything. -/
def demoFSCore : FSCore :=
  ⟨⟨100⟩, 1, fun _ => none, fun _ => true, fun _ => true, fun _ => true⟩

/-- A concrete original file record of size 50. -/
def demoOrigin : ModelFile := ⟨50, "orig.bin", none, 1⟩

theorem hookValidateCapacityDiff_witness :
    HookValidateCapacityDiff ⟨some demoOrigin, false⟩ demoFSCore
      ⟨"a.bin", 40, 0, "/tmp/a", none, "/"⟩ = .returned none ∧
    HookValidateCapacityDiff ⟨some demoOrigin, false⟩ demoFSCore
      ⟨"a.bin", 100, 0, "/tmp/a", none, "/"⟩ = .returned none :=
  ⟨(hookValidateCapacityDiff_spec ⟨some demoOrigin, false⟩ demoFSCore
      ⟨"a.bin", 40, 0, "/tmp/a", none, "/"⟩ demoOrigin rfl).1 (by decide),
   ((hookValidateCapacityDiff_spec ⟨some demoOrigin, false⟩ demoFSCore
      ⟨"a.bin", 100, 0, "/tmp/a", none, "/"⟩ demoOrigin rfl).2 (by decide)).2 rfl⟩

/-- Claim C5: HookValidateFile checks size, then filename legality, then
extension; each failure yields its own distinct error; the first violated
rule determines the result (the later validators cannot influence it); the
result is nil exactly when all three checks pass. -/
theorem hookValidateFile_spec (fs : FSCore) (info : FileInfo) :
    (fs.validateFileSize info.size = false →
      HookValidateFile fs info = some .fileSizeTooBig) ∧
    (fs.validateFileSize info.size = true →
     fs.validateLegalName info.fileName = false →
      HookValidateFile fs info = some .illegalObjectName) ∧
    (fs.validateFileSize info.size = true →
     fs.validateLegalName info.fileName = true →
     fs.validateExtension info.fileName = false →
      HookValidateFile fs info = some .fileExtensionNotAllowed) ∧
    (HookValidateFile fs info = none ↔
      fs.validateFileSize info.size = true ∧
      fs.validateLegalName info.fileName = true ∧
      fs.validateExtension info.fileName = true) ∧
    (FSError.fileSizeTooBig ≠ FSError.illegalObjectName ∧
     FSError.fileSizeTooBig ≠ FSError.fileExtensionNotAllowed ∧
     FSError.illegalObjectName ≠ FSError.fileExtensionNotAllowed) := by
  refine ⟨?_, ?_, ?_, ?_, by decide⟩
  · intro h1; simp [HookValidateFile, h1]
  · intro h1 h2; simp [HookValidateFile, h1, h2]
  · intro h1 h2 h3; simp [HookValidateFile, h1, h2, h3]
  · constructor
    · intro h
      by_cases h1 : fs.validateFileSize info.size <;>
        by_cases h2 : fs.validateLegalName info.fileName <;>
          by_cases h3 : fs.validateExtension info.fileName <;>
            simp [HookValidateFile, h1, h2, h3] at h ⊢
    · rintro ⟨h1, h2, h3⟩
      simp [HookValidateFile, h1, h2, h3]

/-- An FSCore whose legal-name validator rejects one particular slashed name
and whose extension validator rejects one particular png name. -/
def strictFSCore : FSCore :=
  ⟨⟨100⟩, 1, fun _ => none, fun n => n ≤ 60,
    fun s => s != "a/b.jpg", fun s => s != "a.png"⟩

theorem hookValidateFile_witness :
    HookValidateFile strictFSCore ⟨"big.jpg", 61, 0, "/tmp/b", none, "/"⟩ =
      some .fileSizeTooBig ∧
    HookValidateFile strictFSCore ⟨"a/b.jpg", 10, 0, "/tmp/b", none, "/"⟩ =
      some .illegalObjectName ∧
    HookValidateFile strictFSCore ⟨"a.png", 10, 0, "/tmp/b", none, "/"⟩ =
      some .fileExtensionNotAllowed ∧
    HookValidateFile strictFSCore ⟨"a.jpg", 10, 0, "/tmp/b", none, "/"⟩ = none :=
  ⟨(hookValidateFile_spec strictFSCore ⟨"big.jpg", 61, 0, "/tmp/b", none, "/"⟩).1
      (by decide),
   (hookValidateFile_spec strictFSCore ⟨"a/b.jpg", 10, 0, "/tmp/b", none, "/"⟩).2.1
      (by decide) (by decide),
   (hookValidateFile_spec strictFSCore ⟨"a.png", 10, 0, "/tmp/b", none, "/"⟩).2.2.1
      (by decide) (by decide) (by decide),
   (hookValidateFile_spec strictFSCore ⟨"a.jpg", 10, 0, "/tmp/b", none, "/"⟩).2.2.2.1.mpr
      ⟨by decide, by decide, by decide⟩⟩

/-! ## World state for the stateful hooks

The persisted file record (reached through UpdateSize / UpdateSourceName on
the context-carried model.File), the physical store behind fs.Handler
(existing paths and their contents), the cancellation flag, and the size
recorded on the in-flight FileHeader. The database and driver calls these
hooks make are modelled as always-succeeding updates of this state; their
own I/O failures are external to hooks.go. -/
structure World where
  originFileSize : Nat
  originSourceName : String
  physFiles : List String
  contents : List (String × String)
  cancelled : Bool
  headerSize : Nat
deriving DecidableEq, Repr

/-- Write a key/value pair into an association list, replacing the first
binding of the key when present (the physical store behind Handler.Put). -/
def setAssoc : List (String × String) → String → String → List (String × String)
  | [], k, v => [(k, v)]
  | (k', v') :: t, k, v =>
    if k' = k then (k, v) :: t else (k', v') :: setAssoc t k v

lemma setAssoc_idem (l : List (String × String)) (k v : String) :
    setAssoc (setAssoc l k v) k v = setAssoc l k v := by
  induction l with
  | nil => simp [setAssoc]
  | cons p t ih =>
    by_cases hk : p.1 = k
    · simp [setAssoc, hk]
    · simp [setAssoc, hk, ih]

lemma filter_self_idem (f : String → Bool) (l : List String) :
    (l.filter f).filter f = l.filter f := by
  induction l with
  | nil => simp
  | cons a t ih => by_cases hf : f a <;> simp [List.filter_cons, hf, ih]

/-! ## Cleanup / rollback hooks (hooks.go lines 115-161, 276-279) -/

/-- HookDeleteTempFile (hooks.go lines 115-123): deletes the physical file
at the save path through the handler; a deletion error is only logged and
the hook always returns nil. -/
def HookDeleteTempFile (info : FileInfo) (w : World) : World × Option FSError :=
  ({ w with physFiles := w.physFiles.filter (fun p => p != info.savePath) }, none)

/-- HookCleanFileContent (hooks.go lines 126-134): overwrites the file at
the save path with empty content through Handler.Put and returns the driver
result (the modelled driver always succeeds). -/
def HookCleanFileContent (info : FileInfo) (w : World) : World × Option FSError :=
  ({ w with contents := setAssoc w.contents info.savePath "" }, none)

/-- HookClearFileSize (hooks.go lines 137-143): checked type assertion on
the context file record (object-not-exist error when absent), then
UpdateSize(0) on the record. -/
def HookClearFileSize (ctx : Ctx) (w : World) : World × Option FSError :=
  match ctx.fileModel with
  | none => (w, some .objectNotExist)
  | some _ => ({ w with originFileSize := 0 }, none)

/-- HookCancelContext (hooks.go lines 146-152): invokes the cancellation
function from the context when one is attached; always returns nil. -/
def HookCancelContext (ctx : Ctx) (w : World) : World × Option FSError :=
  if ctx.cancelFunc then ({ w with cancelled := true }, none) else (w, none)

/-- HookUpdateSourceName (hooks.go lines 155-161): checked type assertion on
the context file record (object-not-exist error when absent), then
UpdateSourceName with the record's own source name. -/
def HookUpdateSourceName (ctx : Ctx) (w : World) : World × Option FSError :=
  match ctx.fileModel with
  | none => (w, some .objectNotExist)
  | some originFile =>
    ({ w with originSourceName := originFile.sourceName }, none)

/-- HookClearFileHeaderSize (hooks.go lines 276-279): SetSize(0) on the
in-flight FileHeader; always returns nil. -/
def HookClearFileHeaderSize (w : World) : World × Option FSError :=
  ({ w with headerSize := 0 }, none)

/-! ## Chunk hooks (hooks.go lines 293-306) -/

/-- HookChunkUploaded (hooks.go lines 293-298): unchecked type assertion on
fileInfo.Model (panics when absent), then UpdateSize(appendStart + size) on
the record; AppendStart and Size are Go uint64 values, so the sum wraps
modulo 2 to the 64. -/
def HookChunkUploaded (info : FileInfo) (w : World) : World × HookOutcome :=
  match info.model with
  | none => (w, .panicked)
  | some _ =>
    ({ w with originFileSize := (info.appendStart + info.size) % 2 ^ 64 },
      .returned none)

/-- HookChunkUploadFailed (hooks.go lines 301-306): unchecked type assertion
on fileInfo.Model (panics when absent), then UpdateSize(appendStart). -/
def HookChunkUploadFailed (info : FileInfo) (w : World) : World × HookOutcome :=
  match info.model with
  | none => (w, .panicked)
  | some _ =>
    ({ w with originFileSize := info.appendStart }, .returned none)

/-- A concrete world used by several witnesses. -/
def baseWorld : World := ⟨50, "orig.bin", ["/tmp/a"], [], false, 10⟩

/-- A chunk header whose uint64 sum overflows: append offset is the largest
uint64 value and the chunk size is 2, so the Go sum wraps to 1. -/
def overflowInfo : FileInfo :=
  ⟨"c.bin", 2, 18446744073709551615, "/tmp/c", some demoOrigin, "/"⟩

/-- Claim C4 counterexample: at append offset 2 to the 64 minus 1 and chunk
size 2, HookChunkUploaded persists the wrapped uint64 sum 1, not the
mathematical sum appendStart + size, so the claim as stated fails at this
input. -/
theorem chunkHooks_cx :
    (HookChunkUploaded overflowInfo baseWorld).1.originFileSize = 1 ∧
    (((1 : Nat) == 18446744073709551615 + 2) = false) := by
  constructor
  · rfl
  · rfl

/-- Claim C4 as amended: with a file record attached, HookChunkUploaded
sets the persisted size to the wrapped uint64 sum of appendStart and size
whatever the size was before (not a cumulative sum over prior calls), which
equals appendStart + size whenever that sum fits in 64 bits;
HookChunkUploadFailed sets the persisted size to appendStart; and
HookChunkUploaded followed by HookChunkUploadFailed with the same
appendStart leaves the recorded size exactly appendStart, for every
intermediate chunk size and every starting state. -/
theorem chunkHooks_spec (info : FileInfo) (w : World) (mf : ModelFile)
    (h : info.model = some mf) :
    ((HookChunkUploaded info w).1.originFileSize =
        (info.appendStart + info.size) % 2 ^ 64 ∧
      (HookChunkUploaded info w).2 = .returned none) ∧
    (info.appendStart + info.size < 2 ^ 64 →
      (HookChunkUploaded info w).1.originFileSize =
        info.appendStart + info.size) ∧
    ((HookChunkUploadFailed info w).1.originFileSize = info.appendStart ∧
      (HookChunkUploadFailed info w).2 = .returned none) ∧
    (HookChunkUploadFailed info (HookChunkUploaded info w).1).1.originFileSize
      = info.appendStart := by
  refine ⟨⟨?_, ?_⟩, ?_, ⟨?_, ?_⟩, ?_⟩ <;>
    simp [HookChunkUploaded, HookChunkUploadFailed, h, Nat.mod_eq_of_lt]

/-- A concrete chunk header: append offset 100, chunk size 7, record
attached. -/
def chunkInfo : FileInfo := ⟨"c.bin", 7, 100, "/tmp/c", some demoOrigin, "/"⟩

theorem chunkHooks_witness :
    (HookChunkUploaded chunkInfo baseWorld).1.originFileSize = 107 ∧
    (HookChunkUploadFailed chunkInfo
        (HookChunkUploaded chunkInfo baseWorld).1).1.originFileSize = 100 :=
  ⟨(chunkHooks_spec chunkInfo baseWorld demoOrigin rfl).2.1 (by decide),
   (chunkHooks_spec chunkInfo baseWorld demoOrigin rfl).2.2.2⟩

/-- Claim C9 counterexample: with no original file record attached to the
context, HookClearFileSize and HookUpdateSourceName do NOT return nil; they
return the object-not-exist error, so the claim that they succeed in that
situation is false. -/
theorem cleanupHooks_cx :
    (HookClearFileSize ⟨none, false⟩ baseWorld).2 =
        some FSError.objectNotExist ∧
    (HookUpdateSourceName ⟨none, false⟩ baseWorld).2 =
        some FSError.objectNotExist ∧
    some FSError.objectNotExist ≠ (none : Option FSError) :=
  ⟨rfl, rfl, by decide⟩

/-- Claim C9 as amended: each cleanup hook is idempotent on the world state
(running it twice from any state equals running it once), and
HookDeleteTempFile, HookCleanFileContent, HookClearFileHeaderSize and
HookCancelContext always return nil (HookCancelContext also when no
cancellation function is attached, HookDeleteTempFile also when the path
does not exist), while HookClearFileSize and HookUpdateSourceName return
the object-not-exist error, not nil, when no original file record is
attached to the context, and nil when one is. -/
theorem cleanupHooks_spec (info : FileInfo) (ctx : Ctx) (w : World) :
    ((HookDeleteTempFile info w).2 = none ∧
      HookDeleteTempFile info (HookDeleteTempFile info w).1 =
        HookDeleteTempFile info w) ∧
    ((HookCleanFileContent info w).2 = none ∧
      HookCleanFileContent info (HookCleanFileContent info w).1 =
        HookCleanFileContent info w) ∧
    ((HookClearFileHeaderSize w).2 = none ∧
      HookClearFileHeaderSize (HookClearFileHeaderSize w).1 =
        HookClearFileHeaderSize w) ∧
    ((HookCancelContext ctx w).2 = none ∧
      HookCancelContext ctx (HookCancelContext ctx w).1 =
        HookCancelContext ctx w) ∧
    ((ctx.fileModel = none →
        (HookClearFileSize ctx w).2 = some .objectNotExist ∧
        (HookUpdateSourceName ctx w).2 = some .objectNotExist) ∧
      (∀ mf, ctx.fileModel = some mf →
        (HookClearFileSize ctx w).2 = none ∧
        (HookUpdateSourceName ctx w).2 = none) ∧
      HookClearFileSize ctx (HookClearFileSize ctx w).1 =
        HookClearFileSize ctx w ∧
      HookUpdateSourceName ctx (HookUpdateSourceName ctx w).1 =
        HookUpdateSourceName ctx w) := by
  refine ⟨⟨rfl, ?_⟩, ⟨rfl, ?_⟩, ⟨rfl, rfl⟩, ⟨?_, ?_⟩, ?_, ?_, ?_, ?_⟩
  · simp [HookDeleteTempFile, filter_self_idem]
  · simp [HookCleanFileContent, setAssoc_idem]
  · by_cases hc : ctx.cancelFunc <;> simp [HookCancelContext, hc]
  · by_cases hc : ctx.cancelFunc <;> simp [HookCancelContext, hc]
  · intro h; simp [HookClearFileSize, HookUpdateSourceName, h]
  · intro mf h; simp [HookClearFileSize, HookUpdateSourceName, h]
  · cases h : ctx.fileModel <;> simp [HookClearFileSize, h]
  · cases h : ctx.fileModel <;> simp [HookUpdateSourceName, h]

theorem cleanupHooks_witness :
    (HookCancelContext ⟨none, false⟩ baseWorld).2 = none ∧
    (HookClearFileSize ⟨some demoOrigin, false⟩ baseWorld).2 = none ∧
    (HookUpdateSourceName ⟨some demoOrigin, false⟩ baseWorld).2 = none :=
  ⟨(cleanupHooks_spec chunkInfo ⟨none, false⟩ baseWorld).2.2.2.1.1,
   ((cleanupHooks_spec chunkInfo ⟨some demoOrigin, false⟩
      baseWorld).2.2.2.2.2.1 demoOrigin rfl).1,
   ((cleanupHooks_spec chunkInfo ⟨some demoOrigin, false⟩
      baseWorld).2.2.2.2.2.1 demoOrigin rfl).2⟩

/-- Claim C10: when the context lacks a file record under the file-model
key, HookValidateCapacityDiff panics (its unchecked type assertion fails),
while the sibling hooks HookResetPolicy and HookClearFileSize, which use the
checked form of the assertion, return the object-not-exist error instead. -/
theorem missingContext_spec (ctx : Ctx) (fs : FSCore) (info : FileInfo)
    (w : World) (h : ctx.fileModel = none) :
    HookValidateCapacityDiff ctx fs info = .panicked ∧
    (HookResetPolicy ctx fs).2 = some .objectNotExist ∧
    (HookClearFileSize ctx w).2 = some .objectNotExist := by
  refine ⟨?_, ?_, ?_⟩ <;>
    simp [HookValidateCapacityDiff, HookResetPolicy, HookClearFileSize, h]

theorem missingContext_witness :
    HookValidateCapacityDiff ⟨none, true⟩ demoFSCore chunkInfo =
      HookOutcome.panicked ∧
    (HookResetPolicy ⟨none, true⟩ demoFSCore).2 =
      some FSError.objectNotExist :=
  ⟨(missingContext_spec ⟨none, true⟩ demoFSCore chunkInfo baseWorld rfl).1,
   (missingContext_spec ⟨none, true⟩ demoFSCore chunkInfo baseWorld rfl).2.1⟩

/-! ## GenericAfterUpload (hooks.go lines 207-235) -/

/-- The collaborators GenericAfterUpload calls on the FileSystem, as
abstract oracles: CreateDirectory resolves or creates the directory for a
virtual path (folders and inserted files are identified by Nat ids),
IsChildFileExist looks a name up in a folder and returns the existing
model.File when present, AddFile inserts the new record and returns it or
an underlying storage error. -/
structure AfterUploadEnv where
  createDirectory : String → Except FSError Nat
  isChildFileExist : Nat → String → Option ModelFile
  addFile : Nat → Except FSError Nat

/-- The observable result of GenericAfterUpload: the returned error (none =
nil), whether AddFile was invoked, and the record bound onto the in-flight
FileHeader via SetModel (none when no record was bound). -/
structure AfterUploadResult where
  err : Option FSError
  addFileCalled : Bool
  boundModel : Option Nat
deriving DecidableEq, Repr

/-- GenericAfterUpload (hooks.go lines 207-235): create or find the
directory (its error is returned unchanged), reject when a same-named child
exists — session-conflict error when the existing record carries a non-nil
upload session reference, file-exists error otherwise — then insert the new
record, mapping any insert failure to the generic insert-failure error, and
bind the created record onto the FileHeader. -/
def GenericAfterUpload (env : AfterUploadEnv) (info : FileInfo) :
    AfterUploadResult :=
  match env.createDirectory info.virtualPath with
  | .error e => ⟨some e, false, none⟩
  | .ok folder =>
    match env.isChildFileExist folder info.fileName with
    | some existing =>
      if existing.uploadSessionID.isSome then
        ⟨some .fileUploadSessionExisted, false, none⟩
      else
        ⟨some .fileExisted, false, none⟩
    | none =>
      match env.addFile folder with
      | .error _ => ⟨some .insertFileRecord, true, none⟩
      | .ok file => ⟨none, true, some file⟩

/-- Claim C8: once the destination directory resolves, a same-named child
with a non-nil upload-session reference yields the session-conflict error
and one without yields the file-exists error, in both cases without invoking
AddFile; when no child exists, an AddFile failure is surfaced as the
generic insert-failure error whatever the underlying error was, and on
success the created record is bound onto the FileHeader with a nil error. -/
theorem genericAfterUpload_spec (env : AfterUploadEnv) (info : FileInfo)
    (folder : Nat) (hdir : env.createDirectory info.virtualPath = .ok folder) :
    (∀ existing, env.isChildFileExist folder info.fileName = some existing →
      (existing.uploadSessionID.isSome →
        GenericAfterUpload env info =
          ⟨some .fileUploadSessionExisted, false, none⟩) ∧
      (existing.uploadSessionID = none →
        GenericAfterUpload env info = ⟨some .fileExisted, false, none⟩)) ∧
    (env.isChildFileExist folder info.fileName = none →
      (∀ e, env.addFile folder = .error e →
        GenericAfterUpload env info = ⟨some .insertFileRecord, true, none⟩) ∧
      (∀ fid, env.addFile folder = .ok fid →
        GenericAfterUpload env info = ⟨none, true, some fid⟩)) := by
  constructor
  · intro existing hex
    constructor
    · intro hsess; simp [GenericAfterUpload, hdir, hex, hsess]
    · intro hsess; simp [GenericAfterUpload, hdir, hex, hsess]
  · intro hex
    constructor
    · intro e hadd; simp [GenericAfterUpload, hdir, hex, hadd]
    · intro fid hadd; simp [GenericAfterUpload, hdir, hex, hadd]

/-- An existing child record that is mid-chunk-upload (non-nil session). -/
def midUploadChild : ModelFile := ⟨0, "c.bin", some "sess-1", 1⟩

/-- An environment where the destination folder is id 3 and the name c.bin
already has a mid-upload child. -/
def envConflict : AfterUploadEnv :=
  ⟨fun _ => .ok 3,
   fun folder n => if folder = 3 && n == "c.bin" then some midUploadChild
                   else none,
   fun _ => .ok 9⟩

/-- An environment with an empty destination folder whose insert fails with
an underlying storage error. -/
def envInsertFail : AfterUploadEnv :=
  ⟨fun _ => .ok 3, fun _ _ => none, fun _ => .error (.underlying 42)⟩

/-- An environment with an empty destination folder whose insert succeeds
with record id 9. -/
def envInsertOk : AfterUploadEnv :=
  ⟨fun _ => .ok 3, fun _ _ => none, fun _ => .ok 9⟩

theorem genericAfterUpload_witness :
    GenericAfterUpload envConflict chunkInfo =
      ⟨some .fileUploadSessionExisted, false, none⟩ ∧
    GenericAfterUpload envInsertFail chunkInfo =
      ⟨some .insertFileRecord, true, none⟩ ∧
    GenericAfterUpload envInsertOk chunkInfo = ⟨none, true, some 9⟩ :=
  ⟨((genericAfterUpload_spec envConflict chunkInfo 3 rfl).1 midUploadChild
      (by decide)).1 rfl,
   ((genericAfterUpload_spec envInsertFail chunkInfo 3 rfl).2 rfl).1
      (.underlying 42) rfl,
   ((genericAfterUpload_spec envInsertOk chunkInfo 3 rfl).2 rfl).2 9 rfl⟩

/-! ## Middleware: response model -/

/-- Serializer response codes reached by the middleware under verification:
0 (success), a parameter error, CodeCheckLogin and CodePolicyNotAllowed. -/
inductive RespCode where
  | ok
  | paramErr
  | checkLogin
  | policyNotAllowed
deriving DecidableEq, Repr

/-- What a gin middleware does to the request: calls c.Next, or aborts with
a JSON error envelope (HTTP status plus serializer code), or aborts with a
bare HTTP status and no body. -/
inductive GinOutcome where
  | nextCalled
  | abortedJSON (httpStatus : Nat) (code : RespCode)
  | abortedStatus (status : Nat)
deriving DecidableEq, Repr

/-! ## SignRequired (middleware, lines 16-35) -/

/-- Which signature verification SignRequired performs: auth.CheckRequest
over the full request, or auth.CheckURI over the URL only. -/
inductive SigCheckKind where
  | fullRequest
  | uriOnly
deriving DecidableEq, Repr

/-- The branch selector of SignRequired's switch on the request method:
full-request verification for PUT and POST, URI-only for every other
method. -/
def signCheckKind (method : String) : SigCheckKind :=
  if method = "PUT" ∨ method = "POST" then .fullRequest else .uriOnly

/-- The outcomes of the two verifiers for this request, as abstract oracles
(auth.CheckRequest and auth.CheckURI live outside the file under
verification); some carries the error message. -/
structure SignEnv where
  checkRequest : Option String
  checkURI : Option String

/-- The error SignRequired observes: the result of the verifier selected by
the method. -/
def signCheckError (method : String) (env : SignEnv) : Option String :=
  match signCheckKind method with
  | .fullRequest => env.checkRequest
  | .uriOnly => env.checkURI

/-- SignRequired (middleware lines 16-35): on a verification error, answers
HTTP 200 with a CodeCheckLogin JSON envelope and aborts; otherwise calls
c.Next. -/
def SignRequired (method : String) (env : SignEnv) : GinOutcome :=
  match signCheckError method env with
  | some _ => .abortedJSON 200 .checkLogin
  | none => .nextCalled

/-- Modelled from the spec: the claim quantifies over mutating request
methods; the non-safe (mutating) methods of the HTTP standard are POST,
PUT, DELETE and PATCH. -/
def isMutatingMethodSpec (m : String) : Bool :=
  m == "POST" || m == "PUT" || m == "DELETE" || m == "PATCH"

/-- Claim C6 counterexample: DELETE is a mutating method, yet SignRequired
verifies only the URI-only signature for it, not the full-request one, so
the claim as stated fails at method DELETE. -/
theorem signRequired_cx :
    isMutatingMethodSpec "DELETE" = true ∧
    signCheckKind "DELETE" = SigCheckKind.uriOnly ∧
    SigCheckKind.uriOnly ≠ SigCheckKind.fullRequest := by
  refine ⟨by decide, by decide, by decide⟩

/-- Claim C6 as amended: SignRequired verifies the full-request HMAC
signature exactly when the method is PUT or POST, and the URI-only
signature for every other method (DELETE and PATCH included); whichever
verifier runs, a verification error is answered with a check-login-class
JSON error and the request is aborted, and a clean verification falls
through to c.Next. -/
theorem signRequired_spec (method : String) (env : SignEnv) :
    (signCheckKind method = .fullRequest ↔ method = "PUT" ∨ method = "POST") ∧
    (∀ e, signCheckError method env = some e →
      SignRequired method env = .abortedJSON 200 .checkLogin) ∧
    (signCheckError method env = none →
      SignRequired method env = .nextCalled) := by
  refine ⟨?_, ?_, ?_⟩
  · unfold signCheckKind
    by_cases h : method = "PUT" ∨ method = "POST" <;> simp [h]
  · intro e h; simp [SignRequired, h]
  · intro h; simp [SignRequired, h]

/-- A verification environment where the full-request check fails and the
URI-only check passes. -/
def failFullEnv : SignEnv := ⟨some "bad signature", none⟩

theorem signRequired_witness :
    SignRequired "PUT" failFullEnv =
      GinOutcome.abortedJSON 200 RespCode.checkLogin ∧
    SignRequired "GET" failFullEnv = GinOutcome.nextCalled :=
  ⟨(signRequired_spec "PUT" failFullEnv).2.1 "bad signature" rfl,
   (signRequired_spec "GET" failFullEnv).2.2 rfl⟩

/-! ## WebDAVAuth (middleware, lines 68-109) -/

/-- The resolved WebDAV user: CheckPassword as an oracle on the presented
password, and the group's WebDAV capability flag. -/
structure DavUser where
  checkPassword : String → Bool
  webdavEnabled : Bool

/-- The request-side inputs of WebDAVAuth: the outcome of
c.Request.BasicAuth (none when no or malformed credentials) and the user
store lookup by email (none collapses any GetUserByEmail error). -/
structure DavEnv where
  basicAuth : Option (String × String)
  getUserByEmail : String → Option DavUser

/-- The observable result of WebDAVAuth: the gin outcome and whether a user
was admitted onto the context (c.Set of user followed by c.Next). -/
structure DavResult where
  outcome : GinOutcome
  userSet : Bool
deriving DecidableEq, Repr

/-- WebDAVAuth (middleware lines 68-109): OPTIONS passes through without
any check; then missing credentials, an unknown user and a failed password
check each answer a bare HTTP 401 and abort; a user whose group has WebDAV
disabled answers a bare HTTP 403 and aborts; otherwise the user is set and
c.Next is called. The 401 and 403 answers carry no JSON body, which the
embedding states through the abortedStatus constructor. -/
def WebDAVAuth (env : DavEnv) (method : String) : DavResult :=
  if method = "OPTIONS" then ⟨.nextCalled, false⟩
  else
    match env.basicAuth with
    | none => ⟨.abortedStatus 401, false⟩
    | some (username, password) =>
      match env.getUserByEmail username with
      | none => ⟨.abortedStatus 401, false⟩
      | some expectedUser =>
        if ¬ expectedUser.checkPassword password then ⟨.abortedStatus 401, false⟩
        else if ¬ expectedUser.webdavEnabled then ⟨.abortedStatus 403, false⟩
        else ⟨.nextCalled, true⟩

/-- Claim C7: OPTIONS passes through with no authentication (and without
admitting a user); missing credentials, an unknown user and a wrong
password each answer a bare HTTP 401 (no JSON body) and abort; correct
credentials with the group's WebDAV capability disabled answer a bare HTTP
403 and abort; credentials that pass every check admit the user; and a user
is admitted only on that full path. -/
theorem webdavAuth_spec (env : DavEnv) (method : String) :
    (method = "OPTIONS" → WebDAVAuth env method = ⟨.nextCalled, false⟩) ∧
    (method ≠ "OPTIONS" → env.basicAuth = none →
      WebDAVAuth env method = ⟨.abortedStatus 401, false⟩) ∧
    (method ≠ "OPTIONS" → ∀ u p, env.basicAuth = some (u, p) →
      env.getUserByEmail u = none →
      WebDAVAuth env method = ⟨.abortedStatus 401, false⟩) ∧
    (method ≠ "OPTIONS" → ∀ u p user, env.basicAuth = some (u, p) →
      env.getUserByEmail u = some user → user.checkPassword p = false →
      WebDAVAuth env method = ⟨.abortedStatus 401, false⟩) ∧
    (method ≠ "OPTIONS" → ∀ u p user, env.basicAuth = some (u, p) →
      env.getUserByEmail u = some user → user.checkPassword p = true →
      user.webdavEnabled = false →
      WebDAVAuth env method = ⟨.abortedStatus 403, false⟩) ∧
    (method ≠ "OPTIONS" → ∀ u p user, env.basicAuth = some (u, p) →
      env.getUserByEmail u = some user → user.checkPassword p = true →
      user.webdavEnabled = true →
      WebDAVAuth env method = ⟨.nextCalled, true⟩) ∧
    ((WebDAVAuth env method).userSet = true →
      method ≠ "OPTIONS" ∧ ∃ u p user, env.basicAuth = some (u, p) ∧
        env.getUserByEmail u = some user ∧ user.checkPassword p = true ∧
        user.webdavEnabled = true) := by
  refine ⟨?_, ?_, ?_, ?_, ?_, ?_, ?_⟩
  · intro h; simp [WebDAVAuth, h]
  · intro h hba; simp [WebDAVAuth, h, hba]
  · intro h u p hba hu; simp [WebDAVAuth, h, hba, hu]
  · intro h u p user hba hu hpw; simp [WebDAVAuth, h, hba, hu, hpw]
  · intro h u p user hba hu hpw hdav
    simp [WebDAVAuth, h, hba, hu, hpw, hdav]
  · intro h u p user hba hu hpw hdav
    simp [WebDAVAuth, h, hba, hu, hpw, hdav]
  · intro hset
    by_cases h : method = "OPTIONS"
    · simp [WebDAVAuth, h] at hset
    · refine ⟨h, ?_⟩
      rcases hba : env.basicAuth with _ | ⟨u, p⟩
      · simp [WebDAVAuth, h, hba] at hset
      · rcases hu : env.getUserByEmail u with _ | user
        · simp [WebDAVAuth, h, hba, hu] at hset
        · by_cases hpw : user.checkPassword p
          · by_cases hdav : user.webdavEnabled
            · exact ⟨u, p, user, by simp [hba], by simp [hu],
                by simp [hpw], by simp [hdav]⟩
            · simp [WebDAVAuth, h, hba, hu, hpw, hdav] at hset
          · simp [WebDAVAuth, h, hba, hu, hpw] at hset

/-- A user store with one account, alice, whose password is pw1 and whose
group has WebDAV disabled. -/
def davEnvDisabled : DavEnv :=
  ⟨some ("alice", "pw1"),
   fun e => if e == "alice" then some ⟨fun p => p == "pw1", false⟩ else none⟩

/-- The same account with WebDAV enabled. -/
def davEnvEnabled : DavEnv :=
  ⟨some ("alice", "pw1"),
   fun e => if e == "alice" then some ⟨fun p => p == "pw1", true⟩ else none⟩

theorem webdavAuth_witness :
    WebDAVAuth davEnvDisabled "PROPFIND" =
      ⟨GinOutcome.abortedStatus 403, false⟩ ∧
    WebDAVAuth davEnvEnabled "PROPFIND" = ⟨GinOutcome.nextCalled, true⟩ ∧
    WebDAVAuth davEnvDisabled "OPTIONS" = ⟨GinOutcome.nextCalled, false⟩ :=
  ⟨(webdavAuth_spec davEnvDisabled "PROPFIND").2.2.2.2.1 (by decide)
      "alice" "pw1" ⟨fun p => p == "pw1", false⟩ rfl rfl rfl rfl,
   (webdavAuth_spec davEnvEnabled "PROPFIND").2.2.2.2.2.1 (by decide)
      "alice" "pw1" ⟨fun p => p == "pw1", true⟩ rfl rfl rfl rfl,
   (webdavAuth_spec davEnvDisabled "OPTIONS").1 rfl⟩

/-! ## uploadCallbackCheck (middleware, lines 112-141) -/

/-- The cached upload session: owning user id and the policy id recorded at
session creation. -/
structure UploadSession where
  uid : Nat
  policyID : Nat
deriving DecidableEq, Repr

/-- The user resolved during callback checking: its id and the result of
GetPolicyID, the user's current policy. -/
structure CbUser where
  id : Nat
  policyID : Nat
deriving DecidableEq, Repr

/-- The cache store restricted to upload sessions: an association list from
full cache key to session. -/
abbrev CacheStore := List (String × UploadSession)

/-- cache.Get: the value stored under the key, when present. -/
def cacheGet (c : CacheStore) (k : String) : Option UploadSession :=
  match c.find? (fun p => p.1 == k) with
  | some p => some p.2
  | none => none

/-- cache.Deletes for one key: removes every binding of the key. -/
def cacheDeletes (c : CacheStore) (k : String) : CacheStore :=
  c.filter (fun p => p.1 != k)

lemma cacheGet_deletes (c : CacheStore) (k : String) :
    cacheGet (cacheDeletes c k) k = none := by
  induction c with
  | nil => rfl
  | cons p t ih =>
    by_cases h : p.1 = k
    · simp [cacheDeletes, List.filter_cons, h] at ih ⊢
      exact ih
    · simpa [cacheDeletes, cacheGet, List.filter_cons, List.find?, h] using ih

/-- The user store, as an abstract oracle: GetUserByID with any lookup
error collapsed to none. -/
structure CbEnv where
  getUserByID : Nat → Option CbUser

/-- The observable result of uploadCallbackCheck: the serializer response
code (RespCode.ok models the zero-valued success response), the returned
user and the cache store after the call. -/
structure CallbackCheckResult where
  respCode : RespCode
  user : Option CbUser
  cache : CacheStore
deriving Repr

/-- uploadCallbackCheck (middleware lines 112-141): rejects an empty key
and a key with no cached session as parameter errors; otherwise deletes the
cached session under the callback_ namespace, then looks the owning user up
(check-login error when not found), then rejects with the
policy-not-allowed error when the user's current policy id differs from the
policy id recorded in the session; only then answers success with the
user. -/
def uploadCallbackCheck (env : CbEnv) (key : String) (cache : CacheStore) :
    CallbackCheckResult :=
  if key = "" then ⟨.paramErr, none, cache⟩
  else
    match cacheGet cache ("callback_" ++ key) with
    | none => ⟨.paramErr, none, cache⟩
    | some callbackSession =>
      let cache' := cacheDeletes cache ("callback_" ++ key)
      match env.getUserByID callbackSession.uid with
      | none => ⟨.checkLogin, none, cache'⟩
      | some user =>
        if user.policyID ≠ callbackSession.policyID then
          ⟨.policyNotAllowed, none, cache'⟩
        else
          ⟨.ok, some user, cache'⟩

/-- Claim C1: whenever the session for the callback key is found in the
cache, the cached entry is absent from the cache after the call, whatever
the outcome of the user lookup and of the policy-consistency check; and
when the resolved user's current policy id differs from the policy id
stored in the session, the call rejects with the policy-not-allowed
error. -/
theorem uploadCallbackCheck_spec (env : CbEnv) (key : String)
    (cache : CacheStore) (s : UploadSession) (hkey : key ≠ "")
    (hfound : cacheGet cache ("callback_" ++ key) = some s) :
    cacheGet (uploadCallbackCheck env key cache).cache ("callback_" ++ key)
      = none ∧
    (∀ u, env.getUserByID s.uid = some u → u.policyID ≠ s.policyID →
      (uploadCallbackCheck env key cache).respCode = .policyNotAllowed) := by
  constructor
  · rcases hu : env.getUserByID s.uid with _ | u
    · simp [uploadCallbackCheck, hkey, hfound, hu, cacheGet_deletes]
    · by_cases hp : u.policyID = s.policyID <;>
        simp [uploadCallbackCheck, hkey, hfound, hu, hp, cacheGet_deletes]
  · intro u hu hp
    simp [uploadCallbackCheck, hkey, hfound, hu, hp]

/-- A user store with one account, id 7, whose current policy is 99. -/
def cbEnv : CbEnv := ⟨fun i => if i = 7 then some ⟨7, 99⟩ else none⟩

/-- One cached session for key k1, owned by user 7, created under policy
1. -/
def cbCache : CacheStore := [("callback_k1", ⟨7, 1⟩)]

theorem uploadCallbackCheck_witness :
    cacheGet (uploadCallbackCheck cbEnv "k1" cbCache).cache "callback_k1"
      = none ∧
    (uploadCallbackCheck cbEnv "k1" cbCache).respCode =
      RespCode.policyNotAllowed :=
  ⟨(uploadCallbackCheck_spec cbEnv "k1" cbCache ⟨7, 1⟩ (by decide) rfl).1,
   (uploadCallbackCheck_spec cbEnv "k1" cbCache ⟨7, 1⟩ (by decide) rfl).2
      ⟨7, 99⟩ rfl (by decide)⟩
